import Mathlib

/-!
Verification of the `result-pattern` library (src/dist/index.js together with
the type declarations in the accompanying .d.ts file).

The runtime consists of two classes, `Ok` and `Fail`, each storing its
constructor argument in the field `value` and setting the boolean flags
`isOk`/`isFail`, plus the combinators `map`, `flatMap`, `mapFails`, `flip`
and the aggregator `ResultUtils.combine`.  The two classes form a closed
two-variant sum type (`export type Result<V, E> = Ok<V, E> | Fail<V, E>`),
so they are embedded as a Lean inductive with two constructors; method
dispatch on the class becomes a pattern match on the constructor.
-/

/-- The `Result<V, E>` sum type: class `Ok` holds a success payload of type
`V`, class `Fail` holds an error payload of type `E`.  Both classes store
their payload in a field named `value` (index.js lines 3 and 22), hence the
shared binder name. -/
inductive Result (V E : Type) where
  | Ok (value : V) : Result V E
  | Fail (value : E) : Result V E
deriving DecidableEq, Repr

namespace Result

variable {V E V2 E2 : Type}

/-- The `isOk` flag: the `Ok` constructor sets `this.isOk = true`
(index.js line 4), the `Fail` constructor sets `this.isOk = false`
(index.js line 23).  The field is readonly, so it is a function of the
variant. -/
def isOk : Result V E → Bool
  | .Ok _ => true
  | .Fail _ => false

/-- The `isFail` flag: `Ok` sets `this.isFail = false` (index.js line 5),
`Fail` sets `this.isFail = true` (index.js line 24). -/
def isFail : Result V E → Bool
  | .Ok _ => false
  | .Fail _ => true

/-- `map`: `Ok.map` (index.js lines 7-9) returns `new Ok(mapFn(this.value))`;
`Fail.map` (index.js lines 26-28) returns `new Fail(this.value)`. -/
def map (r : Result V E) (mapFn : V → V2) : Result V2 E :=
  match r with
  | .Ok v => .Ok (mapFn v)
  | .Fail e => .Fail e

/-- `flatMap`: `Ok.flatMap` (index.js lines 10-12) returns `mapFn(this.value)`
directly; `Fail.flatMap` (index.js lines 29-31) returns
`new Fail(this.value)`. -/
def flatMap (r : Result V E) (mapFn : V → Result V2 E) : Result V2 E :=
  match r with
  | .Ok v => mapFn v
  | .Fail e => .Fail e

/-- `mapFails`: `Ok.mapFails` (index.js lines 13-15) returns
`new Ok(this.value)`; `Fail.mapFails` (index.js lines 32-34) returns
`new Fail(mapFn(this.value))`. -/
def mapFails (r : Result V E) (mapFn : E → E2) : Result V E2 :=
  match r with
  | .Ok v => .Ok v
  | .Fail e => .Fail (mapFn e)

/-- `flip`: `Ok.flip` (index.js lines 16-18) returns `new Fail(this.value)`;
`Fail.flip` (index.js lines 35-37) returns `new Ok(this.value)`. -/
def flip : Result V E → Result E V
  | .Ok v => .Fail v
  | .Fail e => .Ok e

/-- The runtime property access `r.value`: both classes expose their payload
through the single field `value` (index.js lines 3 and 22); `Fail` has no
separate `error` field.  At the type level the declared field types are `V`
on `Ok` and `E` on `Fail` (the .d.ts gives `value: V | E` on the shared
interface), so the untagged accessor is well typed exactly when the two
channels coincide; it is stated on `Result α α`. -/
def value {α : Type} : Result α α → α
  | .Ok v => v
  | .Fail e => e

/-- Payload extraction for the failure branch: `some` of the `value` field
on a `Fail`, `none` on an `Ok`.  Used to render
`results.filter((r) => r.isFail).map((f) => f.value)` (index.js lines 42
and 44) as a single `filterMap`. -/
def failPayload : Result V E → Option E
  | .Ok _ => none
  | .Fail e => some e

/-- Payload extraction for the success branch: `some` of the `value` field
on an `Ok`, `none` on a `Fail`.  Used to render
`results.map((r) => r.value)` (index.js line 47), which is only reached
when every element is an `Ok`. -/
def okPayload : Result V E → Option V
  | .Ok v => some v
  | .Fail _ => none

/-- Modelled from the spec: the `unwrap` operation is declared in spec §4.1
but its implementation is not among the source files.  Per the spec it
"returns the success value; fails with an `UnwrapOnFail` condition (a
panic/fatal-error class) if called on `Fail`".  The fatal condition is the
single value of this type. -/
inductive UnwrapOnFail where
  | mk
deriving DecidableEq, Repr

/-- Modelled from the spec: `unwrap() -> V` returns the success value on
`Ok` and raises the fatal `UnwrapOnFail` condition on `Fail`; the raise is
modelled as the `Except` error channel. -/
def unwrap : Result V E → Except UnwrapOnFail V
  | .Ok v => .ok v
  | .Fail _ => .error .mk

end Result

namespace ResultUtils

variable {V E : Type}

/-- `ResultUtils.combine` (index.js lines 41-49): collect
`results.filter((r) => r.isFail)`; if there is at least one, return
`new Fail(fails.map((f) => f.value))`, else return
`new Ok(results.map((r) => r.value))`.  The filter-then-map of failure
payloads is `filterMap Result.failPayload`; in the else branch every
element is an `Ok`, so mapping the `value` field collects exactly the
success payloads, rendered `filterMap Result.okPayload`. -/
def combine (results : List (Result V E)) : Result (List V) (List E) :=
  let failValues := results.filterMap Result.failPayload
  if failValues.length > 0 then Result.Fail failValues
  else Result.Ok (results.filterMap Result.okPayload)

end ResultUtils

section Lemmas

variable {V E : Type}

/-- The failure-payload list is empty exactly when every input is `Ok`. -/
theorem filterMap_failPayload_eq_nil (rs : List (Result V E)) :
    rs.filterMap Result.failPayload = [] ↔ ∀ r ∈ rs, r.isOk = true := by
  rw [List.filterMap_eq_nil_iff]
  constructor
  · intro h r hr
    have := h r hr
    cases r with
    | Ok v => rfl
    | Fail e => simp [Result.failPayload] at this
  · intro h r hr
    have := h r hr
    cases r with
    | Ok v => rfl
    | Fail e => simp [Result.isOk] at this

/-- On a list of `Ok`s, collecting success payloads recovers the values. -/
theorem filterMap_okPayload_map_Ok (vs : List V) :
    (vs.map (Result.Ok : V → Result V E)).filterMap Result.okPayload = vs := by
  induction vs with
  | nil => rfl
  | cons v vs ih => simp [Result.okPayload, ih]

end Lemmas

section Claims

variable {V E : Type}

/-- Claim C1: for every input list, `ResultUtils.combine` returns `Fail` carrying
the ordered list of all failure payloads whenever some input is a `Fail`;
when every input is `Ok` (i.e. the list is `vs.map Ok`) it returns
`Ok vs`, all success payloads in input order; and the empty input yields
`Ok []`. -/
theorem combine_spec (V E : Type) (rs : List (Result V E)) :
    ((∃ r ∈ rs, r.isFail = true) →
      ResultUtils.combine rs = Result.Fail (rs.filterMap Result.failPayload))
    ∧ (∀ vs : List V, rs = vs.map Result.Ok →
      ResultUtils.combine rs = Result.Ok vs)
    ∧ ResultUtils.combine ([] : List (Result V E)) = Result.Ok [] := by
  refine ⟨?_, ?_, rfl⟩
  · rintro ⟨r, hr, hfail⟩
    have hne : rs.filterMap Result.failPayload ≠ [] := by
      intro hnil
      have := (filterMap_failPayload_eq_nil rs).mp hnil r hr
      cases r with
      | Ok v => simp [Result.isFail] at hfail
      | Fail e => simp [Result.isOk] at this
    unfold ResultUtils.combine
    simp only
    rw [if_pos]
    exact List.length_pos.mpr hne
  · rintro vs rfl
    have hnil : (vs.map (Result.Ok : V → Result V E)).filterMap Result.failPayload = [] := by
      rw [filterMap_failPayload_eq_nil]
      intro r hr
      obtain ⟨v, -, rfl⟩ := List.mem_map.mp hr
      rfl
    unfold ResultUtils.combine
    simp only
    rw [if_neg, filterMap_okPayload_map_Ok]
    simp [hnil]

/-- Claim C1 witness: `combine` at concrete inputs — a mixed list returns the
collected failures, an all-`Ok` list returns the collected values, and the
empty list returns `Ok []`. -/
theorem combine_spec_witness :
    ResultUtils.combine [Result.Ok 1, Result.Fail "a", Result.Fail "b", Result.Ok 4]
      = Result.Fail ["a", "b"]
    ∧ ResultUtils.combine ([Result.Ok 1, Result.Ok 2, Result.Ok 3] : List (Result Nat String))
      = Result.Ok [1, 2, 3]
    ∧ ResultUtils.combine ([] : List (Result Nat String)) = Result.Ok [] := by
  refine ⟨?_, ?_, (combine_spec Nat String []).2.2⟩
  · have h := (combine_spec Nat String
      [Result.Ok 1, Result.Fail "a", Result.Fail "b", Result.Ok 4]).1
      ⟨Result.Fail "a", by simp, rfl⟩
    rw [h]; rfl
  · have h := (combine_spec Nat String
      [Result.Ok 1, Result.Ok 2, Result.Ok 3]).2.1 [1, 2, 3] rfl
    exact h

/-- Claim C2: `Ok(v).flatMap(f)` is `f v` exactly, with no additional wrapping;
`Fail(e).flatMap(f)` is a `Fail` carrying the original error, for every
`f` — in particular the output never depends on `f`, so `f` is never
invoked on the failure branch. -/
theorem flatMap_spec (V V2 E : Type) :
    (∀ (v : V) (f : V → Result V2 E), (Result.Ok v : Result V E).flatMap f = f v)
    ∧ (∀ (e : E) (f : V → Result V2 E),
      (Result.Fail e : Result V E).flatMap f = Result.Fail e) :=
  ⟨fun _ _ => rfl, fun _ _ => rfl⟩

/-- Claim C3: `Ok(v).map(f)` is `Ok (f v)`; `Fail(e).map(f)` is `Fail e` (same
tag, same payload) for every `f`, so `f` is never invoked on the failure
branch. -/
theorem map_spec (V V2 E : Type) :
    (∀ (v : V) (f : V → V2), (Result.Ok v : Result V E).map f = Result.Ok (f v))
    ∧ (∀ (e : E) (f : V → V2), (Result.Fail e : Result V E).map f = Result.Fail e) :=
  ⟨fun _ _ => rfl, fun _ _ => rfl⟩

/-- Claim C4: `unwrap` on `Ok(v)` returns the success value `v` and never raises;
`unwrap` on `Fail` raises the fatal `UnwrapOnFail` condition (the `Except`
error channel of the spec-modelled definition). -/
theorem unwrap_spec (V E : Type) :
    (∀ v : V, (Result.Ok v : Result V E).unwrap = Except.ok v)
    ∧ (∀ e : E, (Result.Fail e : Result V E).unwrap = Except.error Result.UnwrapOnFail.mk) :=
  ⟨fun _ => rfl, fun _ => rfl⟩

/-- Claim C5: `Ok(v).isOk` is `true` and `Ok(v).isFail` is `false`, symmetrically
for `Fail`, and every result — hence every output of construction, `map`,
`flatMap`, `mapFails`, `flip` or `combine`, which are all results — has
exactly one of the two flags set, never both or neither. -/
theorem tags_spec (V E : Type) :
    (∀ v : V, (Result.Ok v : Result V E).isOk = true
      ∧ (Result.Ok v : Result V E).isFail = false)
    ∧ (∀ e : E, (Result.Fail e : Result V E).isOk = false
      ∧ (Result.Fail e : Result V E).isFail = true)
    ∧ ∀ r : Result V E,
      (r.isOk = true ∧ r.isFail = false) ∨ (r.isOk = false ∧ r.isFail = true) := by
  refine ⟨fun v => ⟨rfl, rfl⟩, fun e => ⟨rfl, rfl⟩, fun r => ?_⟩
  cases r with
  | Ok v => exact Or.inl ⟨rfl, rfl⟩
  | Fail e => exact Or.inr ⟨rfl, rfl⟩

/-- Claim C6: `flip` swaps variant and payload — `Ok(v).flip()` is `Fail v` and
`Fail(e).flip()` is `Ok e` — and is self-inverse: `r.flip().flip()` is `r`
with the same tag and payload. -/
theorem flip_spec (V E : Type) :
    (∀ v : V, (Result.Ok v : Result V E).flip = Result.Fail v)
    ∧ (∀ e : E, (Result.Fail e : Result V E).flip = Result.Ok e)
    ∧ ∀ r : Result V E, r.flip.flip = r := by
  refine ⟨fun v => rfl, fun e => rfl, fun r => ?_⟩
  cases r <;> rfl

/-- Claim C7: `Fail(e).mapFails(f)` is `Fail (f e)`; `Ok(v).mapFails(f)` is an
`Ok` carrying the original value `v` unchanged, for every `f`, so `f` is
not applied to the success value. -/
theorem mapFails_spec (V E E2 : Type) :
    (∀ (e : E) (f : E → E2), (Result.Fail e : Result V E).mapFails f = Result.Fail (f e))
    ∧ (∀ (v : V) (f : E → E2), (Result.Ok v : Result V E).mapFails f = Result.Ok v) :=
  ⟨fun _ _ => rfl, fun _ _ => rfl⟩

/-- Claim C8: functor composition — `Ok(v).map(f).map(g)` equals
`Ok(v).map(x => g(f(x)))` for all composable `f` and `g`. -/
theorem map_comp_spec (V V2 V3 E : Type) :
    ∀ (v : V) (f : V → V2) (g : V2 → V3),
      ((Result.Ok v : Result V E).map f).map g
        = (Result.Ok v : Result V E).map (fun x => g (f x)) :=
  fun _ _ _ => rfl

/-- Claim C9: both variants expose their payload through the single property
`value`: `Fail(e).value` is the error payload `e`, under the same accessor
by which `Ok(v).value` is `v`, so reading `value` without first checking
the tag yields the error payload on the failure branch. -/
theorem value_field_spec (α : Type) :
    (∀ e : α, (Result.Fail e : Result α α).value = e)
    ∧ ∀ v : α, (Result.Ok v : Result α α).value = v :=
  ⟨fun _ => rfl, fun _ => rfl⟩

/-- On every list, the failure-payload list has exactly one entry per
`Fail` element. -/
theorem length_filterMap_failPayload (rs : List (Result V E)) :
    (rs.filterMap Result.failPayload).length = (rs.filter Result.isFail).length := by
  induction rs with
  | nil => rfl
  | cons r rs ih => cases r <;> simp [Result.failPayload, Result.isFail, ih]

/-- Claim C10: on an input list containing a `Fail` (witnessed by a decomposition
`pre ++ Fail l :: post`), `combine` returns `Fail` of the ordered
failure-payload list; that list has length equal to the number of `Fail`
inputs; and the `Fail l` input contributes its payload `l` — even when `l`
is itself a list — as exactly one element, in input position, never
flattened. -/
theorem combine_fail_payload (V α : Type)
    (rs pre post : List (Result V (List α))) (l : List α)
    (hsplit : rs = pre ++ Result.Fail l :: post) :
    ResultUtils.combine rs = Result.Fail (rs.filterMap Result.failPayload)
    ∧ (rs.filterMap Result.failPayload).length = (rs.filter Result.isFail).length
    ∧ rs.filterMap Result.failPayload
      = pre.filterMap Result.failPayload ++ l :: post.filterMap Result.failPayload := by
  refine ⟨?_, length_filterMap_failPayload rs, ?_⟩
  · exact (combine_spec V (List α) rs).1 ⟨Result.Fail l, by simp [hsplit], rfl⟩
  · subst hsplit
    simp [List.filterMap_append, Result.failPayload]

/-- Claim C10 witness: `combine [Ok 7, Fail [1,2]]` is `Fail [[1,2]]` — one
collected failure whose array payload stays nested. -/
theorem combine_fail_payload_witness :
    ResultUtils.combine [Result.Ok (7 : Nat), Result.Fail [(1 : Nat), 2]]
      = Result.Fail ([Result.Ok (7 : Nat),
          Result.Fail [(1 : Nat), 2]].filterMap Result.failPayload)
    ∧ ([Result.Ok (7 : Nat), Result.Fail [(1 : Nat), 2]].filterMap Result.failPayload).length
      = ([Result.Ok (7 : Nat), Result.Fail [(1 : Nat), 2]].filter Result.isFail).length
    ∧ [Result.Ok (7 : Nat), Result.Fail [(1 : Nat), 2]].filterMap Result.failPayload
      = [Result.Ok (7 : Nat)].filterMap Result.failPayload
        ++ [(1 : Nat), 2] :: ([] : List (Result Nat (List Nat))).filterMap Result.failPayload :=
  combine_fail_payload Nat Nat
    [Result.Ok 7, Result.Fail [1, 2]] [Result.Ok 7] [] [1, 2] rfl

end Claims
